import Mathlib

/-
Verification of the variant-prioritization core of LcWes (src/LcPrio.py).

The Python code is shallowly embedded: pandas cells are `Option String`
(`none` models a NaN cell), rows are association lists of column name to
cell, Python floats are modelled by `ExtF` (a rational together with the
special values nan / inf / -inf), and every scorer is a total Lean
function mirroring the source line by line.
-/

/-- Python `str.strip` whitespace set (space, tab, newline, CR, VT, FF). -/
def pyIsSpace (c : Char) : Bool :=
  c.toNat = 32 || c.toNat = 9 || c.toNat = 10 || c.toNat = 13 || c.toNat = 11 || c.toNat = 12

/-- ASCII lower-casing of one character: `A`-`Z` (codes 65-90) shift by 32,
everything else is unchanged. -/
def pyCharLower (c : Char) : Char :=
  if 65 ≤ c.toNat ∧ c.toNat ≤ 90 then Char.ofNat (c.toNat + 32) else c

/-- Python `str.lower` on a character list (ASCII; the vocabulary is ASCII). -/
def pyLower (l : List Char) : List Char := l.map pyCharLower

/-- Python `str.strip`: drop whitespace from both ends. -/
def pyStrip (l : List Char) : List Char :=
  (l.dropWhile pyIsSpace).rdropWhile pyIsSpace

/-- Whether `pat` is an initial segment of `l`. -/
def hasPre : List Char → List Char → Bool
  | [], _ => true
  | _ :: _, [] => false
  | a :: p, b :: l => a = b && hasPre p l

/-- Python substring containment (`pat in s`). -/
def hasSub (pat : List Char) : List Char → Bool
  | [] => hasPre pat []
  | c :: t => hasPre pat (c :: t) || hasSub pat t

/-- Python `s.replace(pat, '')` for a non-empty `pat`, fuel-driven so the
kernel can evaluate it (every step consumes at least one character, so
fuel = input length is always enough): remove all left-to-right
non-overlapping occurrences. -/
def pyReplaceF (pat : List Char) : ℕ → List Char → List Char
  | 0, l => l
  | _ + 1, [] => []
  | fuel + 1, c :: t =>
    if hasPre pat (c :: t) then pyReplaceF pat fuel ((c :: t).drop pat.length)
    else c :: pyReplaceF pat fuel t

/-- Python `s.replace(pat, '')` for a non-empty `pat`. -/
def pyReplace (pat : List Char) (l : List Char) : List Char :=
  pyReplaceF pat l.length l

/-- Python `s.split(sep)` for a one-character separator (keeps empty parts). -/
def pySplit (sep : Char) : List Char → List (List Char)
  | [] => [[]]
  | c :: t =>
    if c = sep then [] :: pySplit sep t
    else
      match pySplit sep t with
      | [] => [[c]]
      | h :: r => (c :: h) :: r

/-- Numeric value of a digit string. -/
def natOfDigits (l : List Char) : ℕ :=
  l.foldl (fun n c => n * 10 + (c.toNat - 48)) 0

/-- First-match association lookup (Python `dict` membership / indexing). -/
def assocFind (tbl : List (List Char × ℕ)) (k : List Char) : Option ℕ :=
  (tbl.find? (fun e => e.1 == k)).map (·.2)

/-- First entry whose lower-cased key equals `low` (the case-insensitive scan
in `get_acmg_priority`). -/
def findCI (tbl : List (List Char × ℕ)) (low : List Char) : Option ℕ :=
  (tbl.find? (fun e => pyLower e.1 == low)).map (·.2)

/-- Python `min(list)` with a default for the empty list. -/
def pyMinD (d : ℕ) : List ℕ → ℕ
  | [] => d
  | h :: t => t.foldl min h

/-- The ACMG_PRIORITY table of LcPrio.py, in source (insertion) order. -/
def ACMG_PRIORITY : List (List Char × ℕ) :=
  [("Pathogenic".toList, 1),
   ("Likely pathogenic".toList, 2),
   ("Vus H".toList, 3),
   ("VUS H".toList, 3),
   ("VUS h".toList, 3),
   ("VUS_H".toList, 3),
   ("Vus M".toList, 4),
   ("VUS M".toList, 4),
   ("VUS m".toList, 4),
   ("VUS_M".toList, 4),
   ("Vus C".toList, 5),
   ("VUS C".toList, 5),
   ("VUS c".toList, 5),
   ("VUS_C".toList, 5),
   ("VUS".toList, 6),
   ("Vus".toList, 6),
   ("Uncertain significance".toList, 6),
   ("Likely benign".toList, 7),
   ("Benign".toList, 8),
   ("UNK".toList, 9),
   ("".toList, 9),
   (".".toList, 9)]

/-- The CLINVAR_PRIORITY table of LcPrio.py (the `\x2c` keys contain a
literal backslash, as in the Python source which escapes it). -/
def CLINVAR_PRIORITY : List (List Char × ℕ) :=
  [("Pathogenic".toList, 1),
   ("Pathogenic/Likely_pathogenic".toList, 1),
   ("Pathogenic/Likely_pathogenic/Likely_risk_allele".toList, 1),
   ("Pathogenic/Likely_pathogenic/Pathogenic\\x2c_low_penetrance".toList, 1),
   ("Pathogenic/Likely_risk_allele".toList, 1),
   ("Pathogenic/Pathogenic\\x2c_low_penetrance".toList, 1),
   ("Likely_pathogenic".toList, 2),
   ("Likely_pathogenic/Likely_risk_allele".toList, 2),
   ("Likely_pathogenic\\x2c_low_penetrance".toList, 2),
   ("Likely_risk_allele".toList, 2),
   ("Conflicting_classifications_of_pathogenicity".toList, 3),
   ("Uncertain_significance".toList, 4),
   ("Uncertain_significance/Uncertain_risk_allele".toList, 4),
   ("Uncertain_risk_allele".toList, 4),
   ("Affects".toList, 5),
   ("association".toList, 5),
   ("drug_response".toList, 5),
   ("confers_sensitivity".toList, 5),
   ("risk_factor".toList, 5),
   ("protective".toList, 5),
   ("not_provided".toList, 6),
   ("no_classification_for_the_single_variant".toList, 6),
   ("no_classifications_from_unflagged_records".toList, 6),
   ("other".toList, 6),
   ("UNK".toList, 6),
   ("".toList, 6),
   (".".toList, 6),
   ("Likely_benign".toList, 7),
   ("Benign/Likely_benign".toList, 7),
   ("Benign".toList, 8)]

/-- The VUS sub-category heuristic plus the final `return 9` of
`get_acmg_priority`, as a function of the lower-cased stripped label. -/
def vusFallback (low : List Char) : ℕ :=
  if hasSub "vus".toList low then
    if low.contains 'h' || hasSub "high".toList low then 3
    else if low.contains 'm' || hasSub "medium".toList low then 4
    else if low.contains 'c' || hasSub "cold".toList low then 5
    else 6
  else 9

/-- Steps 2-4 of `get_acmg_priority` (case-insensitive scan, then the VUS
heuristic), as a function of the lower-cased stripped label. -/
def acmgCI (low : List Char) : ℕ :=
  match findCI ACMG_PRIORITY low with
  | some t => t
  | none => vusFallback low

/-- `get_acmg_priority` on the stripped label: exact lookup, then the
case-insensitive steps. -/
def acmgOf (s : List Char) : ℕ :=
  match assocFind ACMG_PRIORITY s with
  | some t => t
  | none => acmgCI (pyLower s)

/-- get_acmg_priority of LcPrio.py; `none` models a NaN cell. -/
def get_acmg_priority (v : Option String) : ℕ :=
  match v with
  | none => 9
  | some s => acmgOf (pyStrip s.toList)

/-- The cleaning step of `get_clinvar_priority`:
`str(v).replace('clinvar: ', '').strip()`. -/
def clinvarClean (s : String) : List Char :=
  pyStrip (pyReplace "clinvar: ".toList s.toList)

/-- get_clinvar_priority of LcPrio.py; `none` models a NaN cell. -/
def get_clinvar_priority (v : Option String) : ℕ :=
  match v with
  | none => 6
  | some s =>
    let cl := clinvarClean s
    if cl.contains '|' then
      pyMinD 6 ((pySplit '|' cl).filterMap (fun p => assocFind CLINVAR_PRIORITY (pyStrip p)))
    else
      (assocFind CLINVAR_PRIORITY cl).getD 6

/-- Refinement target for the consensus resolver, following the spec's words:
strip the fixed prefix and whitespace, split on `|`, strip each part, take
the minimum tier among all recognized parts, defaulting to 6 when none is
recognized or the field is missing. -/
def clinvarMinSpec (v : Option String) : ℕ :=
  match v with
  | none => 6
  | some s =>
    pyMinD 6 ((pySplit '|' (clinvarClean s)).filterMap
      (fun p => assocFind CLINVAR_PRIORITY (pyStrip p)))

/-- `re.findall` for the fixed pattern `([^(]+)\((\d+)\)` used by
`parse_clnsigconf`, as a fuel-driven scanner (each step consumes at least
one character, so fuel = input length is always enough).  The regex is
deterministic here: a match is a maximal non-empty run of non-`(`
characters, a literal `(`, a maximal non-empty digit run, and `)`; on
failure the scan resumes after the offending `(`. -/
def pyFindPairsF : ℕ → List Char → List (List Char × ℕ)
  | 0, _ => []
  | fuel + 1, s =>
    let s1 := s.dropWhile (· = '(')
    match s1 with
    | [] => []
    | _ :: _ =>
      let run := s1.takeWhile (· ≠ '(')
      match s1.dropWhile (· ≠ '(') with
      | [] => []
      | _ :: rest2 =>
        let ds := rest2.takeWhile Char.isDigit
        match ds, rest2.dropWhile Char.isDigit with
        | _ :: _, ')' :: rest4 => (run, natOfDigits ds) :: pyFindPairsF fuel rest4
        | _, _ => pyFindPairsF fuel rest2

/-- All `label(count)` matches of a CLNSIGCONF string. -/
def pyFindPairs (l : List Char) : List (List Char × ℕ) :=
  pyFindPairsF l.length l

/-- Python dict insertion: a repeated key keeps its first position but its
value is overwritten. -/
def dictIns (m : List (List Char × ℕ)) (k : List Char) (v : ℕ) : List (List Char × ℕ) :=
  if m.any (fun e => e.1 == k) then
    m.map (fun e => if e.1 == k then (e.1, v) else e)
  else m ++ [(k, v)]

/-- The `counts` dict of `parse_clnsigconf`, built by successive insertion. -/
def dictOfPairs (ps : List (List Char × ℕ)) : List (List Char × ℕ) :=
  ps.foldl (fun m p => dictIns m p.1 p.2) []

/-- The `weights` table of `parse_clnsigconf` (signed weights). -/
def CLNSIGCONF_WEIGHTS : List (List Char × ℤ) :=
  [("Pathogenic".toList, -10),
   ("Likely_pathogenic".toList, -8),
   ("Pathogenic\\x2c_low_penetrance".toList, -7),
   ("Likely_risk_allele".toList, -6),
   ("Uncertain_significance".toList, 0),
   ("Uncertain_risk_allele".toList, 0),
   ("Likely_benign".toList, 5),
   ("Benign".toList, 8)]

/-- `weights.get(label, 0)`. -/
def clnsigWeight (k : List Char) : ℤ :=
  ((CLNSIGCONF_WEIGHTS.find? (fun e => e.1 == k)).map (·.2)).getD 0

/-- Weighted sum and total count of `parse_clnsigconf`, kept in integers so
the kernel can evaluate them; the early-return cases of the Python code
(missing, empty, no matches, zero total) all surface as total = 0. -/
def clnsigNumDen (v : Option String) : ℤ × ℕ :=
  match v with
  | none => (0, 0)
  | some s =>
    if s = "" then (0, 0)
    else
      let counts := dictOfPairs (pyFindPairs s.toList)
      ((counts.map (fun e => clnsigWeight e.1 * (e.2 : ℤ))).sum, (counts.map (·.2)).sum)

/-- parse_clnsigconf of LcPrio.py; `none` models a NaN cell.  The score is
the count-weighted sum over the parsed `counts` dict divided by the total
count, 0 when nothing was parsed or the total is 0. -/
def parse_clnsigconf (v : Option String) : ℚ :=
  let p := clnsigNumDen v
  if p.2 = 0 then 0 else (p.1 : ℚ) / (p.2 : ℚ)

/-- Result of Python `float(...)`: the special values nan / inf / -inf, or
an exact decimal `dec m e` of value `m / 10^e` (text floats are modelled
exactly rather than with binary rounding). -/
inductive ExtF where
  | nan : ExtF
  | inf : ExtF
  | ninf : ExtF
  | dec : ℤ → ℕ → ExtF
deriving DecidableEq

/-- Kernel-friendly power of ten. -/
def pow10n : ℕ → ℕ
  | 0 => 1
  | n + 1 => 10 * pow10n n

/-- Kernel-friendly power of ten, as an integer. -/
def pow10 (n : ℕ) : ℤ := (pow10n n : ℤ)

/-- `x >= p/q` on Python floats for a positive integer `q` (nan compares
false): `m / 10^e ≥ p/q ↔ p * 10^e ≤ m * q`. -/
def extGe (x : ExtF) (p : ℤ) (q : ℕ) : Bool :=
  match x with
  | .nan => false
  | .inf => true
  | .ninf => false
  | .dec m e => decide (p * pow10 e ≤ m * (q : ℤ))

/-- `x > p/q` on Python floats for a positive integer `q`. -/
def extGt (x : ExtF) (p : ℤ) (q : ℕ) : Bool :=
  match x with
  | .nan => false
  | .inf => true
  | .ninf => false
  | .dec m e => decide (p * pow10 e < m * (q : ℤ))

/-- `x < p/q` on Python floats for a positive integer `q`. -/
def extLt (x : ExtF) (p : ℤ) (q : ℕ) : Bool :=
  match x with
  | .nan => false
  | .inf => false
  | .ninf => true
  | .dec m e => decide (m * (q : ℤ) < p * pow10 e)

/-- Exponent part of a float literal applied to an exact decimal mantissa
`m / 10^e`: the remaining characters must be a non-empty digit run. -/
def expApply (m : ℕ) (e : ℕ) (ds : List Char) (neg : Bool) : Option (ℕ × ℕ) :=
  if ds ≠ [] ∧ ds.all Char.isDigit then
    some (if neg then (m, e + natOfDigits ds) else (m * pow10n (natOfDigits ds), e))
  else none

/-- Optional `e`/`E` exponent suffix of a float literal. -/
def parseExpPart (m : ℕ) (e : ℕ) (r : List Char) : Option (ℕ × ℕ) :=
  match r with
  | [] => some (m, e)
  | c :: r2 =>
    if c = 'e' || c = 'E' then
      match r2 with
      | '+' :: r3 => expApply m e r3 false
      | '-' :: r3 => expApply m e r3 true
      | r3 => expApply m e r3 false
    else none

/-- Unsigned decimal float literal as an exact decimal `(m, e)` of value
`m / 10^e`: digits with an optional fraction and exponent; at least one
digit must be present around the point. -/
def parseDec (l : List Char) : Option (ℕ × ℕ) :=
  let ip := l.takeWhile Char.isDigit
  match l.dropWhile Char.isDigit with
  | '.' :: r2 =>
    let fp := r2.takeWhile Char.isDigit
    if ip.isEmpty && fp.isEmpty then none
    else parseExpPart (natOfDigits (ip ++ fp)) fp.length (r2.dropWhile Char.isDigit)
  | r1 => if ip.isEmpty then none else parseExpPart (natOfDigits ip) 0 r1

/-- Unsigned body of `float(...)`: the keywords inf / infinity / nan
(case-insensitively) or a decimal literal. -/
def pyFloatBody (l : List Char) (neg : Bool) : Option ExtF :=
  let low := pyLower l
  if low = "inf".toList || low = "infinity".toList then
    some (if neg then .ninf else .inf)
  else if low = "nan".toList then some .nan
  else
    match parseDec l with
    | none => none
    | some p => some (.dec (if neg then -(p.1 : ℤ) else (p.1 : ℤ)) p.2)

/-- Python `float(s)` on a string: `none` models a raised ValueError. -/
def pyFloatStr (s : String) : Option ExtF :=
  match pyStrip s.toList with
  | '+' :: r => pyFloatBody r false
  | '-' :: r => pyFloatBody r true
  | r => pyFloatBody r false

/-- A pandas cell: `none` is NaN. -/
abbrev Cell := Option String

/-- A row: association list from column name to cell. -/
abbrev VariantRow := List (String × Cell)

/-- `row.get(c)` without default: `none` when the column key is absent. -/
def rowGet (r : VariantRow) (c : String) : Option Cell :=
  (r.find? (fun e => e.1 == c)).map (·.2)

/-- Cell of a column accessed through `df[c]`: an absent key behaves as NaN. -/
def rowCell (r : VariantRow) (c : String) : Cell :=
  (rowGet r c).getD none

/-- `float(row.get(c, d))`: an absent column gives `float(d)`, a NaN cell
gives nan (Python `float` of the nan float succeeds), a string is parsed. -/
def pyFloatCell (oc : Option Cell) (d : String) : Option ExtF :=
  match oc with
  | none => pyFloatStr d
  | some none => some ExtF.nan
  | some (some s) => pyFloatStr s

/-- Python `str(...)` of a `row.get(c, '')` result: an absent column gives
the default `''`, a NaN cell prints as `"nan"`. -/
def pyStrOfGet (oc : Option Cell) : String :=
  match oc with
  | none => ""
  | some none => "nan"
  | some (some s) => s

/-- One numeric-predictor block of `calculate_in_silico_score`: on parse
failure the accumulator is unchanged, otherwise the contribution is added
and the denominator incremented (in Python `score` is an integer). -/
def numStep (p : ℤ × ℕ) (oc : Option ExtF) (contrib : ExtF → ℤ) : ℤ × ℕ :=
  match oc with
  | none => p
  | some v => (p.1 + contrib v, p.2 + 1)

/-- Accumulated (score, count) of `calculate_in_silico_score` before the
final division: CADD (≥25 gives -2, ≥20 gives -1), SIFT (<0.05 gives -1),
GERP++ (>4.4 gives -1), phyloP (>2.0 gives -1) and the categorical MetaSVM
(a `D` anywhere gives -1, else a `T` gives +1). -/
def inSilicoParts (r : VariantRow) : ℤ × ℕ :=
  let p1 := numStep (0, 0) (pyFloatCell (rowGet r "CADD_phred") ".")
    (fun v => if extGe v 25 1 then -2 else if extGe v 20 1 then -1 else 0)
  let p2 := numStep p1 (pyFloatCell (rowGet r "SIFT_score") ".")
    (fun v => if extLt v 1 20 then -1 else 0)
  let p3 := numStep p2 (pyFloatCell (rowGet r "GERP++_RS") ".")
    (fun v => if extGt v 22 5 then -1 else 0)
  let p4 := numStep p3 (pyFloatCell (rowGet r "phyloP46way_placental") ".")
    (fun v => if extGt v 2 1 then -1 else 0)
  let ms := pyStrip (pyStrOfGet (rowGet r "MetaSVM_score")).toList
  if ms ≠ [] ∧ ms ≠ ['.'] then
    (p4.1 + (if ms.contains 'D' then -1 else if ms.contains 'T' then 1 else 0), p4.2 + 1)
  else p4

/-- calculate_in_silico_score of LcPrio.py. -/
def calculate_in_silico_score (r : VariantRow) : ℚ :=
  let p := inSilicoParts r
  if 0 < p.2 then (p.1 : ℚ) / (p.2 : ℚ) else 0

/-- The band-separated composite of `prioritize_variants`:
`acmg*1000000 + clinvar*10000 + clnsigconf*100 + in_silico`. -/
def compositeKey (a c : ℕ) (f s : ℚ) : ℚ :=
  (a : ℚ) * 1000000 + (c : ℚ) * 10000 + f * 100 + s

/-- `_acmg_priority` of a row. -/
def acmgOfRow (r : VariantRow) : ℕ :=
  get_acmg_priority (rowCell r "ACMG")

/-- `_clinvar_priority` of a row (before the dominance override). -/
def clinvarOfRow (r : VariantRow) : ℕ :=
  get_clinvar_priority (rowCell r "clinvar: Clinvar ")

/-- The dominance override: `df.loc[is_pathogenic, '_clinvar_priority'] = 0`
for rows with `_acmg_priority <= 2`. -/
def overrideClinvar (a c : ℕ) : ℕ :=
  if a ≤ 2 then 0 else c

/-- `_final_priority` of a row: the composite key after the override. -/
def finalKey (r : VariantRow) : ℚ :=
  compositeKey (acmgOfRow r) (overrideClinvar (acmgOfRow r) (clinvarOfRow r))
    (parse_clnsigconf (rowCell r "CLNSIGCONF")) (calculate_in_silico_score r)

/-- A pandas DataFrame: its column set plus its rows. -/
structure VDataFrame where
  cols : List String
  rows : List VariantRow

/-- The column accesses and per-row scoring of `prioritize_variants`:
`df['ACMG']`, `df['clinvar: Clinvar ']` and `df['CLNSIGCONF']` raise
KeyError when the column is absent (in that source order); the predictor
columns are read with `row.get` and never raise.  On success every row
receives its `_final_priority` key. -/
def prioritizeKeys (df : VDataFrame) : Except String (List ℚ) :=
  if df.cols.contains "ACMG" = false then .error "KeyError: ACMG"
  else if df.cols.contains "clinvar: Clinvar " = false then .error "KeyError: clinvar: Clinvar "
  else if df.cols.contains "CLNSIGCONF" = false then .error "KeyError: CLNSIGCONF"
  else .ok (df.rows.map finalKey)

/-- Whether a consensus lookup result is a tier strictly above 6 (an absent
entry passes vacuously); used to state hypotheses decidably. -/
def tierGt6 : Option ℕ → Bool
  | some t => decide (6 < t)
  | none => true

/-- A record with classification VUS, confidence breakdown of score 0 and a
tolerated MetaSVM call (predictor score +1). -/
def c1Row1 : VariantRow :=
  [("ACMG", some "VUS"), ("CLNSIGCONF", some "Uncertain_significance(1)"),
   ("MetaSVM_score", some "T")]

/-- A record with classification VUS, confidence breakdown of score 1/100
and a high CADD value (predictor score -2). -/
def c1Row2 : VariantRow :=
  [("ACMG", some "VUS"), ("CLNSIGCONF", some "Likely_benign(1)|Uncertain_significance(499)"),
   ("CADD_phred", some "30")]

/-- A record whose only predictor column is a CADD value above the high
threshold. -/
def c8RowCadd : VariantRow := [("CADD_phred", some "30")]

/-- The same record with an additional SIFT column whose value is missing
(a NaN cell). -/
def c8RowCaddSift : VariantRow := [("CADD_phred", some "30"), ("SIFT_score", none)]

/-- ASCII lower-casing does not change whether a character is whitespace. -/
theorem pyIsSpace_pyCharLower (c : Char) : pyIsSpace (pyCharLower c) = pyIsSpace c := by
  unfold pyCharLower
  split_ifs with h
  · have hlt : c.toNat + 32 < 55296 := by omega
    have htn : (Char.ofNat (c.toNat + 32)).toNat = c.toNat + 32 := by
      have hv : Nat.isValidChar (c.toNat + 32) := Or.inl hlt
      unfold Char.ofNat
      rw [dif_pos hv]
      rfl
    have h1 : pyIsSpace (Char.ofNat (c.toNat + 32)) = false := by
      unfold pyIsSpace
      rw [htn]
      simp only [Bool.or_eq_false_iff, decide_eq_false_iff_not]
      omega
    have h2 : pyIsSpace c = false := by
      unfold pyIsSpace
      simp only [Bool.or_eq_false_iff, decide_eq_false_iff_not]
      omega
    rw [h1, h2]
  · rfl

/-- Stripping is idempotent. -/
theorem pyStrip_idem (l : List Char) : pyStrip (pyStrip l) = pyStrip l := by
  unfold pyStrip
  have h2 : ((l.dropWhile pyIsSpace).rdropWhile pyIsSpace).dropWhile pyIsSpace
      = (l.dropWhile pyIsSpace).rdropWhile pyIsSpace := by
    cases hB : (l.dropWhile pyIsSpace).rdropWhile pyIsSpace with
    | nil => rfl
    | cons b tb =>
      have hpre : (l.dropWhile pyIsSpace).rdropWhile pyIsSpace <+: l.dropWhile pyIsSpace :=
        List.rdropWhile_prefix pyIsSpace (l.dropWhile pyIsSpace)
      rw [hB] at hpre
      obtain ⟨u, hu⟩ := hpre
      have hA : l.dropWhile pyIsSpace = b :: (tb ++ u) := by
        rw [← hu, List.cons_append]
      have hne : l.dropWhile pyIsSpace ≠ [] := by rw [hA]; simp
      have hhead := List.head_dropWhile_not pyIsSpace l hne
      have hb : (l.dropWhile pyIsSpace).head hne = b := by simp [hA]
      rw [hb] at hhead
      rw [List.dropWhile_cons]
      simp [hhead]
  rw [h2, List.rdropWhile_idempotent]

/-- `dropWhile` commutes with mapping a function that preserves the
predicate. -/
theorem dropWhile_map_eq (f : Char → Char) (p : Char → Bool)
    (hp : ∀ c, p (f c) = p c) (l : List Char) :
    (l.map f).dropWhile p = (l.dropWhile p).map f := by
  induction l with
  | nil => rfl
  | cons c t ih =>
    rw [List.map_cons, List.dropWhile_cons, List.dropWhile_cons, hp c]
    cases hpc : p c with
    | true => simpa using ih
    | false => simp

/-- `rdropWhile` commutes with mapping a function that preserves the
predicate. -/
theorem rdropWhile_map_eq (f : Char → Char) (p : Char → Bool)
    (hp : ∀ c, p (f c) = p c) (l : List Char) :
    (l.map f).rdropWhile p = (l.rdropWhile p).map f := by
  unfold List.rdropWhile
  rw [← List.map_reverse, dropWhile_map_eq f p hp, List.map_reverse]

/-- Lower-casing commutes with stripping. -/
theorem pyLower_pyStrip (l : List Char) : pyLower (pyStrip l) = pyStrip (pyLower l) := by
  unfold pyStrip pyLower
  rw [dropWhile_map_eq pyCharLower pyIsSpace pyIsSpace_pyCharLower,
    rdropWhile_map_eq pyCharLower pyIsSpace pyIsSpace_pyCharLower]

/-- A successful exact lookup comes from a table entry. -/
theorem assocFind_mem {tbl : List (List Char × ℕ)} {k : List Char} {t : ℕ}
    (h : assocFind tbl k = some t) : (k, t) ∈ tbl := by
  unfold assocFind at h
  obtain ⟨e, hf, he⟩ := Option.map_eq_some'.mp h
  have hm := List.mem_of_find?_eq_some hf
  have hk := List.find?_some hf
  simp only [beq_iff_eq] at hk
  have hkt : (k, t) = e := by
    cases e
    simp only [Prod.mk.injEq]
    exact ⟨hk.symm, he.symm⟩
  rwa [hkt]

/-- A successful case-insensitive lookup comes from a table entry whose
lower-cased key is the probe. -/
theorem findCI_mem {tbl : List (List Char × ℕ)} {low : List Char} {t : ℕ}
    (h : findCI tbl low = some t) : ∃ k, (k, t) ∈ tbl ∧ pyLower k = low := by
  unfold findCI at h
  obtain ⟨e, hf, he⟩ := Option.map_eq_some'.mp h
  have hm := List.mem_of_find?_eq_some hf
  have hk := List.find?_some hf
  simp only [beq_iff_eq] at hk
  refine ⟨e.1, ?_, hk⟩
  have het : (e.1, t) = e := by
    cases e
    simp only [Prod.mk.injEq, true_and]
    exact he.symm
  rwa [het]

/-- When every pair of table entries with equal lower-cased keys carries the
same tier, an exact hit is also what the case-insensitive scan returns. -/
theorem assocFind_to_findCI {tbl : List (List Char × ℕ)} {k : List Char} {t : ℕ}
    (hcons : ∀ e1 ∈ tbl, ∀ e2 ∈ tbl, pyLower e1.1 = pyLower e2.1 → e1.2 = e2.2)
    (h : assocFind tbl k = some t) : findCI tbl (pyLower k) = some t := by
  induction tbl with
  | nil => simp [assocFind] at h
  | cons e es ih =>
    by_cases hek : ((fun x : List Char × ℕ => x.1 == k) e) = true
    · have hkt : t = e.2 := by
        unfold assocFind at h
        rw [@List.find?_cons_of_pos _ (fun x => x.1 == k) e es hek] at h
        simpa using h.symm
      have hci : ((fun x : List Char × ℕ => pyLower x.1 == pyLower k) e) = true := by
        simp only [beq_iff_eq] at hek ⊢
        rw [hek]
      unfold findCI
      rw [@List.find?_cons_of_pos _ (fun x => pyLower x.1 == pyLower k) e es hci]
      simp [hkt]
    · have htail : assocFind es k = some t := by
        unfold assocFind at h ⊢
        rwa [@List.find?_cons_of_neg _ (fun x => x.1 == k) e es hek] at h
      by_cases hci : ((fun x : List Char × ℕ => pyLower x.1 == pyLower k) e) = true
      · have hmem := assocFind_mem htail
        have het : e.2 = t := by
          have hcc := hcons e (List.mem_cons_self e es) (k, t) (List.mem_cons_of_mem e hmem)
          simp only [beq_iff_eq] at hci
          exact hcc hci
        unfold findCI
        rw [@List.find?_cons_of_pos _ (fun x => pyLower x.1 == pyLower k) e es hci]
        simp [het]
      · have hih := ih (fun e1 he1 e2 he2 =>
          hcons e1 (List.mem_cons_of_mem e he1) e2 (List.mem_cons_of_mem e he2)) htail
        unfold findCI at hih ⊢
        rwa [@List.find?_cons_of_neg _ (fun x => pyLower x.1 == pyLower k) e es hci]

/-- Any two ACMG table entries whose keys agree case-insensitively carry the
same tier (checked over the concrete table). -/
theorem acmg_ci_consistent :
    ∀ e1 ∈ ACMG_PRIORITY, ∀ e2 ∈ ACMG_PRIORITY, pyLower e1.1 = pyLower e2.1 → e1.2 = e2.2 := by
  decide

/-- The ACMG resolver is a function of the lower-cased (stripped) label:
the exact-match step never disagrees with the case-insensitive scan. -/
theorem acmgOf_eq_ci (s : List Char) : acmgOf s = acmgCI (pyLower s) := by
  unfold acmgOf
  cases h : assocFind ACMG_PRIORITY s with
  | none => rfl
  | some t =>
    have := assocFind_to_findCI acmg_ci_consistent h
    unfold acmgCI
    rw [this]

/-- Every ACMG table tier lies in 1..9 (checked over the concrete table). -/
theorem acmg_table_range : ∀ e ∈ ACMG_PRIORITY, 1 ≤ e.2 ∧ e.2 ≤ 9 := by
  decide

/-- The VUS heuristic only returns tiers in 1..9. -/
theorem vusFallback_range (low : List Char) : 1 ≤ vusFallback low ∧ vusFallback low ≤ 9 := by
  unfold vusFallback
  split_ifs <;> omega

/-- The case-insensitive resolver only returns tiers in 1..9. -/
theorem acmgCI_range (low : List Char) : 1 ≤ acmgCI low ∧ acmgCI low ≤ 9 := by
  unfold acmgCI
  cases h : findCI ACMG_PRIORITY low with
  | none => exact vusFallback_range low
  | some t =>
    obtain ⟨k, hmem, _⟩ := findCI_mem h
    exact acmg_table_range (k, t) hmem

/-- Splitting a list that does not contain the separator gives it back as a
single part. -/
theorem pySplit_no_sep {sep : Char} {l : List Char} (h : l.contains sep = false) :
    pySplit sep l = [l] := by
  induction l with
  | nil => rfl
  | cons c t ih =>
    simp only [List.contains_cons, Bool.or_eq_false_iff] at h
    have hc : ¬(c = sep) := by
      intro hcc
      rw [hcc] at h
      simp at h
    unfold pySplit
    rw [if_neg hc, ih h.2]

/-- The left fold by `min` is bounded by its seed. -/
theorem foldl_min_le_init (t : List ℕ) (a : ℕ) : t.foldl min a ≤ a := by
  induction t generalizing a with
  | nil => simp
  | cons b t2 ih =>
    rw [List.foldl_cons]
    exact le_trans (ih (min a b)) (min_le_left a b)

/-- The left fold by `min` is bounded by every listed element and by its
seed. -/
theorem foldl_min_le (t : List ℕ) (a x : ℕ) (h : x ∈ a :: t) : t.foldl min a ≤ x := by
  induction t generalizing a with
  | nil =>
    simp only [List.mem_singleton] at h
    simp [h]
  | cons b t2 ih =>
    rw [List.foldl_cons]
    rcases List.mem_cons.mp h with h1 | h2
    · rw [h1]
      exact le_trans (foldl_min_le_init t2 (min a b)) (min_le_left a b)
    · rcases List.mem_cons.mp h2 with h3 | h4
      · rw [h3]
        exact le_trans (foldl_min_le_init t2 (min a b)) (min_le_right a b)
      · exact ih (min a b) (List.mem_cons_of_mem _ h4)

/-- The left fold by `min` returns its seed or a listed element. -/
theorem foldl_min_mem (t : List ℕ) (a : ℕ) : t.foldl min a ∈ a :: t := by
  induction t generalizing a with
  | nil => simp
  | cons b t2 ih =>
    rw [List.foldl_cons]
    rcases List.mem_cons.mp (ih (min a b)) with h1 | h2
    · rw [h1]
      rcases le_total a b with hab | hba
      · rw [min_eq_left hab]
        exact List.mem_cons_self a _
      · rw [min_eq_right hba]
        exact List.mem_cons_of_mem a (List.mem_cons_self b t2)
    · exact List.mem_cons_of_mem a (List.mem_cons_of_mem b h2)

/-- `pyMinD` returns any listed lower bound. -/
theorem pyMinD_eq {d : ℕ} {l : List ℕ} {m : ℕ} (hm : m ∈ l) (hlb : ∀ x ∈ l, m ≤ x) :
    pyMinD d l = m := by
  cases l with
  | nil => simp at hm
  | cons h t =>
    have h1 : t.foldl min h ∈ h :: t := foldl_min_mem t h
    have h2 : t.foldl min h ≤ m := foldl_min_le t h m hm
    have h3 : m ≤ t.foldl min h := hlb _ h1
    have h4 : pyMinD d (h :: t) = t.foldl min h := rfl
    omega

/-- C9: the classification-tier resolver is case-insensitive — labels that
agree after lower-casing resolve to the same tier — and every input gets a
tier in 1..9, with missing, empty and "." inputs mapping to tier 9. -/
theorem c9_case_insensitive :
    (∀ s t : String, pyLower s.toList = pyLower t.toList →
        get_acmg_priority (some s) = get_acmg_priority (some t))
    ∧ (∀ v : Option String, 1 ≤ get_acmg_priority v ∧ get_acmg_priority v ≤ 9)
    ∧ get_acmg_priority none = 9
    ∧ get_acmg_priority (some "") = 9
    ∧ get_acmg_priority (some ".") = 9 := by
  refine ⟨?_, ?_, rfl, by decide, by decide⟩
  · intro s t h
    show acmgOf (pyStrip s.toList) = acmgOf (pyStrip t.toList)
    rw [acmgOf_eq_ci, acmgOf_eq_ci, pyLower_pyStrip, pyLower_pyStrip, h]
  · intro v
    cases v with
    | none =>
      show 1 ≤ 9 ∧ 9 ≤ 9
      omega
    | some s =>
      show 1 ≤ acmgOf (pyStrip s.toList) ∧ acmgOf (pyStrip s.toList) ≤ 9
      rw [acmgOf_eq_ci]
      exact acmgCI_range _

/-- Witness for C9 at a concrete pair of labels differing only in case. -/
theorem c9_witness :
    get_acmg_priority (some "PATHOGENIC") = get_acmg_priority (some "pathogenic") :=
  c9_case_insensitive.1 "PATHOGENIC" "pathogenic" (by decide)

/-- C6: the consensus resolver refines the spec's minimum rule — for every
input it returns the minimum tier over all recognized (stripped) parts of
the pipe-split cleaned field, defaulting to 6 — and in particular
"Benign|Pathogenic" resolves like "Pathogenic" alone (tier 1), with a
missing field resolving to 6. -/
theorem c6_consensus_min :
    (∀ v : Option String, get_clinvar_priority v = clinvarMinSpec v)
    ∧ get_clinvar_priority (some "Benign|Pathogenic") = get_clinvar_priority (some "Pathogenic")
    ∧ get_clinvar_priority (some "Pathogenic") = 1
    ∧ get_clinvar_priority none = 6 := by
  refine ⟨?_, by decide, by decide, rfl⟩
  intro v
  cases v with
  | none => rfl
  | some s =>
    by_cases hp : (clinvarClean s).contains '|' = true
    · have hmem : '|' ∈ clinvarClean s := by simpa using hp
      simp [get_clinvar_priority, clinvarMinSpec, hp]
      intro hno
      exact absurd hmem hno
    · have hp2 : (clinvarClean s).contains '|' = false := by simpa using hp
      have hstrip : pyStrip (clinvarClean s) = clinvarClean s := pyStrip_idem _
      simp only [get_clinvar_priority, clinvarMinSpec, hp2, Bool.false_eq_true, if_false,
        pySplit_no_sep hp2, List.filterMap_cons, List.filterMap_nil, hstrip]
      cases hfind : assocFind CLINVAR_PRIORITY (clinvarClean s) with
      | none => simp [pyMinD]
      | some t2 => simp [pyMinD]

/-- C10: the empty string is a recognized consensus vocabulary entry with
tier 6, so a pipe-delimited field containing an empty segment (for example
from a trailing or doubled pipe) resolves to 6 whenever every non-empty
recognized part has a tier above 6; concretely "Benign|" gives 6 while
"Benign" alone gives 8. -/
theorem c10_empty_segment :
    (∀ s : String,
       (clinvarClean s).contains '|' = true →
       (pySplit '|' (clinvarClean s)).any (fun p => (pyStrip p).isEmpty) = true →
       (pySplit '|' (clinvarClean s)).all
         (fun p => (pyStrip p).isEmpty
           || tierGt6 (assocFind CLINVAR_PRIORITY (pyStrip p))) = true →
       get_clinvar_priority (some s) = 6)
    ∧ get_clinvar_priority (some "Benign|") = 6
    ∧ get_clinvar_priority (some "Benign") = 8 := by
  refine ⟨?_, by decide, by decide⟩
  intro s hp hany hall
  have hgoal : get_clinvar_priority (some s)
      = pyMinD 6 ((pySplit '|' (clinvarClean s)).filterMap
          (fun p => assocFind CLINVAR_PRIORITY (pyStrip p))) := by
    have hmem : '|' ∈ clinvarClean s := by simpa using hp
    simp [get_clinvar_priority, hp]
    intro hno
    exact absurd hmem hno
  rw [hgoal]
  apply pyMinD_eq
  · rw [List.any_eq_true] at hany
    obtain ⟨p, hpmem, hpe⟩ := hany
    have hpnil : pyStrip p = [] := by simpa using hpe
    apply List.mem_filterMap.mpr
    refine ⟨p, hpmem, ?_⟩
    rw [hpnil]
    decide
  · intro x hx
    obtain ⟨p, hpmem, hpf⟩ := List.mem_filterMap.mp hx
    rw [List.all_eq_true] at hall
    have hor := hall p hpmem
    simp only [Bool.or_eq_true] at hor
    rcases hor with he | ht
    · have he2 : pyStrip p = [] := by simpa using he
      rw [he2] at hpf
      have h6 : assocFind CLINVAR_PRIORITY ([] : List Char) = some 6 := by decide
      rw [h6] at hpf
      have : x = 6 := by injection hpf with h; exact h.symm
      omega
    · rw [hpf] at ht
      have : 6 < x := by simpa [tierGt6] using ht
      omega

/-- Witness for C10 at the concrete input "Benign|". -/
theorem c10_witness : get_clinvar_priority (some "Benign|") = 6 :=
  c10_empty_segment.1 "Benign|" (by decide) (by decide) (by decide)

/-- C2: for rows whose classification tier is at most 2 the consensus tier
is overridden to 0 before the composite key is formed, so the key — and
hence the relative order of two such rows — is a function of classification
tier, confidence score and predictor score only, independent of the
consensus field. -/
theorem c2_override :
    (∀ r : VariantRow, acmgOfRow r ≤ 2 →
        finalKey r = (acmgOfRow r : ℚ) * 1000000
          + parse_clnsigconf (rowCell r "CLNSIGCONF") * 100 + calculate_in_silico_score r)
    ∧ (∀ r1 r2 : VariantRow, acmgOfRow r1 ≤ 2 → acmgOfRow r2 ≤ 2 →
        acmgOfRow r1 = acmgOfRow r2 →
        parse_clnsigconf (rowCell r1 "CLNSIGCONF") = parse_clnsigconf (rowCell r2 "CLNSIGCONF") →
        calculate_in_silico_score r1 = calculate_in_silico_score r2 →
        finalKey r1 = finalKey r2) := by
  have part1 : ∀ r : VariantRow, acmgOfRow r ≤ 2 →
      finalKey r = (acmgOfRow r : ℚ) * 1000000
        + parse_clnsigconf (rowCell r "CLNSIGCONF") * 100 + calculate_in_silico_score r := by
    intro r h
    unfold finalKey compositeKey overrideClinvar
    rw [if_pos h]
    push_cast
    ring
  exact ⟨part1, fun r1 r2 h1 h2 ha hf hs => by
    rw [part1 r1 h1, part1 r2 h2, ha, hf, hs]⟩

/-- Witness for C2: two pathogenic-classified rows that differ only in their
consensus field receive identical composite keys. -/
theorem c2_witness :
    finalKey [("ACMG", some "Pathogenic"), ("clinvar: Clinvar ", some "Benign")]
      = finalKey [("ACMG", some "Pathogenic"), ("clinvar: Clinvar ", some "Pathogenic")] :=
  c2_override.2 _ _ (by decide) (by decide) (by decide) (by decide) (by decide)

/-- C1 (amended): with the tiers and score ranges produced by the scorers
(consensus tier at most 8, confidence score in [-10, 8], predictor score in
[-2, 1]), the composite key is strictly lexicographic in the classification
tier, then the post-override consensus tier; with both tiers equal the
confidence score decides whenever the two confidence scores are more than
0.03 apart (the predictor band's width 3 over the scale 100), and the
predictor score decides on exact confidence ties.  Confidence scores closer
than 0.03 can be overridden by the predictor score (see the
counterexample). -/
theorem c1_amended :
    ∀ (a₁ a₂ c₁ c₂ : ℕ) (f₁ f₂ s₁ s₂ : ℚ),
      c₁ ≤ 8 → c₂ ≤ 8 →
      -10 ≤ f₁ → f₁ ≤ 8 → -10 ≤ f₂ → f₂ ≤ 8 →
      -2 ≤ s₁ → s₁ ≤ 1 → -2 ≤ s₂ → s₂ ≤ 1 →
      ((a₁ < a₂ → compositeKey a₁ c₁ f₁ s₁ < compositeKey a₂ c₂ f₂ s₂)
       ∧ (a₁ = a₂ → c₁ < c₂ → compositeKey a₁ c₁ f₁ s₁ < compositeKey a₂ c₂ f₂ s₂)
       ∧ (a₁ = a₂ → c₁ = c₂ → f₁ * 100 + 3 < f₂ * 100 →
            compositeKey a₁ c₁ f₁ s₁ < compositeKey a₂ c₂ f₂ s₂)
       ∧ (a₁ = a₂ → c₁ = c₂ → f₁ = f₂ → s₁ < s₂ →
            compositeKey a₁ c₁ f₁ s₁ < compositeKey a₂ c₂ f₂ s₂)) := by
  intro a₁ a₂ c₁ c₂ f₁ f₂ s₁ s₂ hc1 hc2 hf1l hf1u hf2l hf2u hs1l hs1u hs2l hs2u
  have hc1q : (c₁ : ℚ) ≤ 8 := by exact_mod_cast hc1
  have hc2q : (c₂ : ℚ) ≤ 8 := by exact_mod_cast hc2
  have hc1n : (0 : ℚ) ≤ (c₁ : ℚ) := by positivity
  have hc2n : (0 : ℚ) ≤ (c₂ : ℚ) := by positivity
  unfold compositeKey
  refine ⟨?_, ?_, ?_, ?_⟩
  · intro hlt
    have ha : (a₁ : ℚ) + 1 ≤ (a₂ : ℚ) := by exact_mod_cast hlt
    nlinarith
  · intro he hlt
    have hcc : (c₁ : ℚ) + 1 ≤ (c₂ : ℚ) := by exact_mod_cast hlt
    rw [he]
    nlinarith
  · intro he hce hf
    rw [he, hce]
    nlinarith
  · intro he hce hfe hs
    rw [he, hce, hfe]
    nlinarith

/-- Witness for C1 (amended) at concrete tier and score values, using the
classification-tier clause. -/
theorem c1_amended_witness :
    compositeKey 1 0 0 0 < compositeKey 2 8 (-10) (-2) :=
  (c1_amended 1 2 0 8 0 (-10) 0 (-2) (by norm_num) (by norm_num) (by norm_num) (by norm_num)
    (by norm_num) (by norm_num) (by norm_num) (by norm_num) (by norm_num) (by norm_num)).1
    (by norm_num)

/-- C1 (counterexample to the claim as stated): two records with equal
classification tier, equal post-override consensus tier and strictly
increasing confidence score whose composite keys order the other way —
record 1 has confidence 0 and predictor +1, record 2 has confidence 1/100
and predictor -2, so the confidence step of the claimed lexicographic
order is violated. -/
theorem c1_counterexample :
    acmgOfRow c1Row1 = acmgOfRow c1Row2
    ∧ overrideClinvar (acmgOfRow c1Row1) (clinvarOfRow c1Row1)
        = overrideClinvar (acmgOfRow c1Row2) (clinvarOfRow c1Row2)
    ∧ parse_clnsigconf (rowCell c1Row1 "CLNSIGCONF")
        < parse_clnsigconf (rowCell c1Row2 "CLNSIGCONF")
    ∧ finalKey c1Row2 < finalKey c1Row1 := by
  have ha1 : acmgOfRow c1Row1 = 6 := by decide
  have ha2 : acmgOfRow c1Row2 = 6 := by decide
  have hc1 : clinvarOfRow c1Row1 = 6 := by decide
  have hc2 : clinvarOfRow c1Row2 = 6 := by decide
  have hf1 : clnsigNumDen (rowCell c1Row1 "CLNSIGCONF") = (0, 1) := by decide
  have hf2 : clnsigNumDen (rowCell c1Row2 "CLNSIGCONF") = (5, 500) := by decide
  have hs1 : inSilicoParts c1Row1 = (1, 1) := by decide
  have hs2 : inSilicoParts c1Row2 = (-2, 1) := by decide
  have hp1 : parse_clnsigconf (rowCell c1Row1 "CLNSIGCONF") = 0 := by
    rw [parse_clnsigconf, hf1]
    norm_num
  have hp2 : parse_clnsigconf (rowCell c1Row2 "CLNSIGCONF") = 1 / 100 := by
    rw [parse_clnsigconf, hf2]
    norm_num
  have hk1 : finalKey c1Row1 = 6060001 := by
    rw [finalKey, ha1, hc1, calculate_in_silico_score, hs1, hp1, overrideClinvar, compositeKey]
    norm_num
  have hk2 : finalKey c1Row2 = 6059999 := by
    rw [finalKey, ha2, hc2, calculate_in_silico_score, hs2, hp2, overrideClinvar, compositeKey]
    norm_num
  refine ⟨by rw [ha1, ha2], by rw [ha1, ha2, hc1, hc2], ?_, ?_⟩
  · rw [hp1, hp2]
    norm_num
  · rw [hk1, hk2]
    norm_num

/-- C3 (evaluation): the composite key ignores payload columns, so records
identical in the scoring fields but different in payload tie exactly; the
claimed preservation of input order among such ties is then decided solely
by the sorting call, and `prioritize_variants` sorts with the pandas
default quicksort, which does not guarantee stability. -/
theorem c3_tie_key :
    finalKey [("ACMG", some "VUS"), ("Ref.Gene", some "BRCA1")]
      = finalKey [("ACMG", some "VUS"), ("Ref.Gene", some "TP53")] := by
  have h1 : acmgOfRow [("ACMG", some "VUS"), ("Ref.Gene", some "BRCA1")]
      = acmgOfRow [("ACMG", some "VUS"), ("Ref.Gene", some "TP53")] := by decide
  have h2 : clinvarOfRow [("ACMG", some "VUS"), ("Ref.Gene", some "BRCA1")]
      = clinvarOfRow [("ACMG", some "VUS"), ("Ref.Gene", some "TP53")] := by decide
  have h3 : rowCell [("ACMG", some "VUS"), ("Ref.Gene", some "BRCA1")] "CLNSIGCONF"
      = rowCell [("ACMG", some "VUS"), ("Ref.Gene", some "TP53")] "CLNSIGCONF" := by decide
  have h4 : inSilicoParts [("ACMG", some "VUS"), ("Ref.Gene", some "BRCA1")]
      = inSilicoParts [("ACMG", some "VUS"), ("Ref.Gene", some "TP53")] := by decide
  rw [finalKey, finalKey, h1, h2, h3, calculate_in_silico_score, calculate_in_silico_score, h4]

/-- C4 (counterexample to the claim as stated): a schema that does contain
the primary classification column but lacks the consensus column is not
tolerated — the pipeline surfaces a KeyError instead of treating the
column as missing. -/
theorem c4_counterexample :
    (VDataFrame.mk ["ACMG", "CLNSIGCONF"] [[("ACMG", some "Pathogenic")]]).cols.contains "ACMG"
        = true
    ∧ prioritizeKeys (VDataFrame.mk ["ACMG", "CLNSIGCONF"] [[("ACMG", some "Pathogenic")]])
        = Except.error "KeyError: clinvar: Clinvar " := by
  constructor
  · decide
  · rfl

/-- C4 (amended): per-field scoring is total — whenever the primary
classification, consensus and confidence-breakdown columns are all present
the pipeline returns a key for every row, tolerating absent predictor
columns and any cell contents — and the absence of any of those three
columns (not only the classification column) surfaces as an error. -/
theorem c4_amended :
    (∀ df : VDataFrame, df.cols.contains "ACMG" = true →
        df.cols.contains "clinvar: Clinvar " = true →
        df.cols.contains "CLNSIGCONF" = true →
        prioritizeKeys df = Except.ok (df.rows.map finalKey))
    ∧ (∀ df : VDataFrame,
        (df.cols.contains "ACMG" = false ∨ df.cols.contains "clinvar: Clinvar " = false
          ∨ df.cols.contains "CLNSIGCONF" = false) →
        ∃ e, prioritizeKeys df = Except.error e) := by
  constructor
  · intro df h1 h2 h3
    unfold prioritizeKeys
    rw [h1, h2, h3]
    rfl
  · intro df h
    unfold prioritizeKeys
    split_ifs with h1 h2 h3
    · exact ⟨_, rfl⟩
    · exact ⟨_, rfl⟩
    · exact ⟨_, rfl⟩
    · rcases h with h | h | h <;> simp_all

/-- Witness for C4 (amended): a schema with all three required columns
yields keys for every row. -/
theorem c4_amended_witness :
    prioritizeKeys (VDataFrame.mk ["ACMG", "clinvar: Clinvar ", "CLNSIGCONF"] [[]])
      = Except.ok (([([] : VariantRow)]).map finalKey) :=
  c4_amended.1 _ (by decide) (by decide) (by decide)

/-- C5 (counterexample to the claim as stated): in
"Pathogenic(1)|Pathogenic(1)" the two Pathogenic pairs do not both
contribute weight -10 — the scorer returns -5, not (-10 - 10) / 2 = -10,
because the second occurrence is extracted as the distinct label
"|Pathogenic" with weight 0. -/
theorem c5_counterexample :
    parse_clnsigconf (some "Pathogenic(1)|Pathogenic(1)") = -5
    ∧ parse_clnsigconf (some "Pathogenic(1)|Pathogenic(1)")
        ≠ ((-10 : ℚ) * 1 + (-10) * 1) / 2 := by
  have h : clnsigNumDen (some "Pathogenic(1)|Pathogenic(1)") = (-10, 2) := by decide
  have he : parse_clnsigconf (some "Pathogenic(1)|Pathogenic(1)") = -5 := by
    rw [parse_clnsigconf, h]
    norm_num
  refine ⟨he, ?_⟩
  rw [he]
  norm_num

/-- C5 (amended): each extracted pair contributes its count to the total,
but a pipe-separated repeat of a label is extracted with a leading `|` as a
distinct key of weight 0, and pairs with identical extracted label text are
deduplicated keeping only the last count.  "Pathogenic(1)|Pathogenic(1)"
totals 2 submissions with weights -10 and 0 (score -5);
"Pathogenic(1)Benign(2)Pathogenic(4)" keeps only the last Pathogenic count
(dict [Pathogenic 4, Benign 2], total 6, score -4). -/
theorem c5_amended :
    pyFindPairs "Pathogenic(1)|Pathogenic(1)".toList
      = [("Pathogenic".toList, 1), ("|Pathogenic".toList, 1)]
    ∧ parse_clnsigconf (some "Pathogenic(1)|Pathogenic(1)") = -5
    ∧ dictOfPairs (pyFindPairs "Pathogenic(1)Benign(2)Pathogenic(4)".toList)
      = [("Pathogenic".toList, 4), ("Benign".toList, 2)]
    ∧ parse_clnsigconf (some "Pathogenic(1)Benign(2)Pathogenic(4)") = -4 := by
  have h1 : clnsigNumDen (some "Pathogenic(1)|Pathogenic(1)") = (-10, 2) := by decide
  have h2 : clnsigNumDen (some "Pathogenic(1)Benign(2)Pathogenic(4)") = (-24, 6) := by decide
  refine ⟨by decide, ?_, by decide, ?_⟩
  · rw [parse_clnsigconf, h1]
    norm_num
  · rw [parse_clnsigconf, h2]
    norm_num

/-- C7 (evaluation): the confidence scorer returns 0 on missing, empty and
match-free input and on a zero total count, but on the spec's own example
"Pathogenic(1)|Benign(1)" it returns -5 rather than the claimed -1,
because the second label is extracted as "|Benign" (weight 0). -/
theorem c7_eval :
    parse_clnsigconf none = 0
    ∧ parse_clnsigconf (some "") = 0
    ∧ (∀ s : String, pyFindPairs s.toList = [] → parse_clnsigconf (some s) = 0)
    ∧ parse_clnsigconf (some "Pathogenic(0)") = 0
    ∧ parse_clnsigconf (some "Pathogenic(1)|Benign(1)") = -5
    ∧ parse_clnsigconf (some "Pathogenic(1)|Benign(1)") ≠ -1 := by
  have h5 : clnsigNumDen (some "Pathogenic(1)|Benign(1)") = (-10, 2) := by decide
  have he : parse_clnsigconf (some "Pathogenic(1)|Benign(1)") = -5 := by
    rw [parse_clnsigconf, h5]
    norm_num
  refine ⟨rfl, rfl, ?_, by decide, he, ?_⟩
  · intro s h
    by_cases hs : s = ""
    · rw [hs]
      rfl
    · have hdata : pyFindPairs s.data = [] := h
      have hnd : clnsigNumDen (some s) = (0, 0) := by
        unfold clnsigNumDen
        simp [hs, hdata, dictOfPairs]
      rw [parse_clnsigconf, hnd]
      norm_num
  · rw [he]
    norm_num

/-- Witness for C7 at a concrete match-free input. -/
theorem c7_witness : parse_clnsigconf (some "xyz") = 0 :=
  c7_eval.2.2.1 "xyz" (by decide)

/-- C8 (counterexample to the claim as stated): a present SIFT column whose
value is missing (NaN) is not skipped — `float(nan)` succeeds and the
predictor is counted in the denominator with contribution 0 — so a record
whose only usable predictor is a CADD value of 30 scores -1 instead of the
claimed single contribution -2. -/
theorem c8_counterexample :
    calculate_in_silico_score c8RowCadd = -2
    ∧ calculate_in_silico_score c8RowCaddSift = -1
    ∧ calculate_in_silico_score c8RowCaddSift ≠ calculate_in_silico_score c8RowCadd := by
  have h1 : inSilicoParts c8RowCadd = (-2, 1) := by decide
  have h2 : inSilicoParts c8RowCaddSift = (-2, 2) := by decide
  have he1 : calculate_in_silico_score c8RowCadd = -2 := by
    rw [calculate_in_silico_score, h1]
    norm_num
  have he2 : calculate_in_silico_score c8RowCaddSift = -1 := by
    rw [calculate_in_silico_score, h2]
    norm_num
  refine ⟨he1, he2, ?_⟩
  rw [he1, he2]
  norm_num

/-- C8 (amended): the predictor scorer returns 0 when no predictor was
counted, and with exactly one counted predictor the score equals that
predictor's contribution; predictors whose column is absent or whose value
fails the numeric parse are skipped, but a present NaN cell parses and is
counted in the denominator with contribution 0 (CADD 30 alone gives -2,
adding a NaN SIFT cell dilutes it to -1). -/
theorem c8_amended :
    (∀ r : VariantRow, (inSilicoParts r).2 = 0 → calculate_in_silico_score r = 0)
    ∧ (∀ r : VariantRow, (inSilicoParts r).2 = 1 →
        calculate_in_silico_score r = ((inSilicoParts r).1 : ℚ))
    ∧ inSilicoParts c8RowCadd = (-2, 1)
    ∧ calculate_in_silico_score c8RowCadd = -2
    ∧ inSilicoParts c8RowCaddSift = (-2, 2)
    ∧ calculate_in_silico_score c8RowCaddSift = -1 := by
  have h1 : inSilicoParts c8RowCadd = (-2, 1) := by decide
  have h2 : inSilicoParts c8RowCaddSift = (-2, 2) := by decide
  refine ⟨?_, ?_, h1, ?_, h2, ?_⟩
  · intro r h
    rw [calculate_in_silico_score, h]
    norm_num
  · intro r h
    rw [calculate_in_silico_score, h]
    norm_num
  · rw [calculate_in_silico_score, h1]
    norm_num
  · rw [calculate_in_silico_score, h2]
    norm_num

/-- Witness for C8 (amended): a row with no predictor content at all is
counted zero times and scores 0. -/
theorem c8_amended_witness : calculate_in_silico_score [] = 0 :=
  c8_amended.1 [] (by decide)
